import Mathlib

/-!
Verification of the parts-catalog ETL pipeline (parts_pdf_etl.py, search_parts.py).

Shallow embedding conventions:
* Line text is modelled as a list of characters (`Text`), so that the
  character-level operations of the Python code (strip, split, regex scan,
  LIKE matching) are explicit executable functions.
* The SQLite database plus the connection that the code keeps open is
  modelled as a `Store` record: one list of rows per table, the per-table
  rowid counters, and the connection-level last-insert-rowid value that
  sqlite3_last_insert_rowid reports (0 when no insert happened yet).
* Library behaviour that the Python code relies on is encoded where the
  claims depend on it, each time with a comment citing the documented
  semantics (SQLite fts5 external-content tables, upsert and
  last_insert_rowid, LIMIT 0, Python truthiness, cursor.lastrowid).
-/

abbrev Text := List Char

/-- Python str.strip default whitespace (ASCII part; catalog text is ASCII). -/
def isSpc (c : Char) : Bool :=
  c = ' ' || c = '\t' || c = '\n' || c = '\r' || c = '\x0b' || c = '\x0c'

/-- Word character of the Python regex \b boundary (ASCII part of \w). -/
def isWordChar (c : Char) : Bool :=
  ('A' ≤ c && c ≤ 'Z') || ('a' ≤ c && c ≤ 'z') || ('0' ≤ c && c ≤ '9') || c = '_'

/-- Character class of PART_PATTERN: [A-Z0-9-]. -/
def isClassChar (c : Char) : Bool :=
  ('A' ≤ c && c ≤ 'Z') || ('0' ≤ c && c ≤ '9') || c = '-'

/-- ASCII alphanumeric (fts5 unicode61-style token character, ASCII part). -/
def isAlnumA (c : Char) : Bool :=
  ('A' ≤ c && c ≤ 'Z') || ('a' ≤ c && c ≤ 'z') || ('0' ≤ c && c ≤ '9')

/-- ASCII lower-casing, as applied by SQLite LIKE and by fts5 tokenizers. -/
def lowerChar (c : Char) : Char :=
  if 'A' ≤ c && c ≤ 'Z' then Char.ofNat (c.toNat + 32) else c

/-- Remove trailing elements satisfying p. -/
def rstripBy (p : Char → Bool) (l : Text) : Text :=
  (l.reverse.dropWhile p).reverse

/-- Python str.strip(): drop leading and trailing whitespace. -/
def pyStrip (l : Text) : Text :=
  rstripBy isSpc (l.dropWhile isSpc)

/-- Python text.split with separator a newline: split into segments at each
newline character; adjacent newlines give empty segments. -/
def splitNL (t : Text) : List Text :=
  t.foldr (fun c acc =>
    if c = '\n' then [] :: acc
    else match acc with
      | [] => [[c]]
      | seg :: rest => (c :: seg) :: rest) [[]]

/-- The per-page line cleanup of extract_pdf_text:
[ln.strip() for ln in text.split backslash-n if ln.strip()]. -/
def cleanLines (t : Text) : List Text :=
  ((splitNL t).map pyStrip).filter (fun l => !l.isEmpty)

/-! PART_PATTERN = re.compile(r"\b([A-Z0-9-]{4,})\b") and its findall scan. -/

/-- Word-character test of an optional character; the ends of the string count
as non-word positions for the \b assertion. -/
def wordAt : Option Char → Bool
  | none => false
  | some c => isWordChar c

/-- The character following a prefix of length m of the class-character run,
falling back to the character that follows the whole run. -/
def charAfter (run : Text) (next? : Option Char) (m : Nat) : Option Char :=
  match run.get? m with
  | some c => some c
  | none => next?

/-- The \b boundary after a candidate match of length m into the run. -/
def boundaryOk (run : Text) (next? : Option Char) (m : Nat) : Bool :=
  wordAt (run.get? (m - 1)) != wordAt (charAfter run next? m)

/-- Greedy backtracking of the minimum-length-4 quantifier: try the longest prefix of the
class-character run first, going down to the minimum length 4, and keep the
first length whose end position satisfies the boundary. -/
def bestLenAux (run : Text) (next? : Option Char) : Nat → Option Nat
  | 0 => none
  | m + 1 =>
    if decide (4 ≤ m + 1) && boundaryOk run next? (m + 1) then some (m + 1)
    else bestLenAux run next? m

def bestLen (run : Text) (next? : Option Char) : Option Nat :=
  bestLenAux run next? run.length

/-- Leftmost, non-overlapping scan of re.findall over the string. prev is the
character before the current position (none at the start of the string); at
each position the engine checks the opening boundary, takes the maximal run of
class characters and backtracks to the longest boundary-closed prefix of
length at least 4. Fuel is the remaining string length plus one. -/
def findallGo : Nat → Option Char → Text → List Text
  | 0, _, _ => []
  | _, _, [] => []
  | fuel + 1, prev, c :: rest =>
    let s := c :: rest
    let run := s.takeWhile isClassChar
    let startB := wordAt prev != wordAt (some c)
    match (if startB then bestLen run (s.get? run.length) else none) with
    | some n => run.take n :: findallGo fuel (run.get? (n - 1)) (s.drop n)
    | none => findallGo fuel (some c) rest

/-- PART_PATTERN.findall(line). -/
def findall (t : Text) : List Text :=
  findallGo (t.length + 1) none t

/-- One element of the candidates list built by detect_part_candidates:
the tuple (doc_id, page, match, line, None, 0.8, line). -/
structure Candidate where
  docId : Nat
  page : Nat
  partNumber : Text
  description : Text
  category : Option Text
  confidence : ℚ
  rawText : Text
deriving DecidableEq

def detect_part_candidates (docId page : Nat) (lines : List Text) : List Candidate :=
  lines.bind fun line =>
    (findall line).map fun m =>
      { docId := docId
        page := page
        partNumber := m
        description := line
        category := none
        confidence := 0.8
        rawText := line }

/-! The staging store (the SQLite database of init_db plus connection state). -/

structure DocRow where
  docId : Nat
  sourceKey : String
  url : String
  filename : String
  brand : Option String
  categoryHint : Option String
deriving DecidableEq

structure LineRow where
  lineId : Nat
  docId : Nat
  page : Nat
  text : Text
deriving DecidableEq

structure CandRow where
  partId : Nat
  docId : Nat
  page : Nat
  partNumber : Text
  description : Text
  category : Option Text
  confidence : ℚ
  rawText : Text
deriving DecidableEq

/-- The database file plus the open connection. ftsIndex is the inverted
index of the raw_lines_fts table: pairs of (content rowid, indexed text).
The schema declares raw_lines_fts as an fts5 external-content table
(content = raw_lines, content_rowid = line_id). Per the SQLite fts5
documentation, an external-content table is NOT populated automatically:
the user must keep the index in sync with triggers or explicit writes, and
the schema of init_db creates no triggers. lastInsertRowid models the
connection-level sqlite3_last_insert_rowid value, 0 before any insert. -/
structure Store where
  docs : List DocRow
  rawLines : List LineRow
  ftsIndex : List (Nat × Text)
  candidates : List CandRow
  nextDocId : Nat
  nextLineId : Nat
  nextPartId : Nat
  lastInsertRowid : Nat
deriving DecidableEq

/-- init_db: the database file is deleted and the schema recreated, so every
run starts from empty tables and a fresh connection. -/
def init_db : Store :=
  { docs := [], rawLines := [], ftsIndex := [], candidates := [],
    nextDocId := 1, nextLineId := 1, nextPartId := 1, lastInsertRowid := 0 }

/-- upsert_source: INSERT .. ON CONFLICT(source_key) DO UPDATE, then
return cur.lastrowid or a lookup of doc_id by source_key. Modelled library
semantics: on the insert path the new rowid becomes the connection
last-insert-rowid and cursor.lastrowid returns it; on the DO UPDATE path
SQLite leaves sqlite3_last_insert_rowid unchanged (an upsert that updates is
not a successful insert), so cursor.lastrowid reports the stale
connection-level value, and the Python `or` falls through to the SELECT
fallback only when that value is 0 (falsy). -/
def upsert_source (st : Store) (key url filename : String)
    (brand categoryHint : Option String) : Nat × Store :=
  match st.docs.find? (fun r => r.sourceKey == key) with
  | some row =>
    let docs := st.docs.map fun r =>
      if r.sourceKey == key then
        { r with
          url := url
          filename := filename
          brand := brand
          categoryHint := categoryHint }
      else r
    (if st.lastInsertRowid ≠ 0 then st.lastInsertRowid else row.docId,
     { st with docs := docs })
  | none =>
    let newRow : DocRow :=
      { docId := st.nextDocId
        sourceKey := key
        url := url
        filename := filename
        brand := brand
        categoryHint := categoryHint }
    (st.nextDocId,
     { st with
       docs := st.docs ++ [newRow]
       nextDocId := st.nextDocId + 1
       lastInsertRowid := st.nextDocId })

/-- insert_raw_lines: executemany of plain INSERTs into raw_lines; each row
takes the next line_id rowid and updates the connection last-insert-rowid.
The fts index is not written (no trigger exists in the schema). -/
def insert_raw_lines (st : Store) (docId page : Nat) (lines : List Text) : Store :=
  lines.foldl (fun s line =>
    { s with
      rawLines := s.rawLines ++
        [{ lineId := s.nextLineId, docId := docId, page := page, text := line }]
      nextLineId := s.nextLineId + 1
      lastInsertRowid := s.nextLineId }) st

/-- A row with the given (part_number, description) pair already exists.
The schema column description is nullable and SQLite UNIQUE treats NULLs as
distinct, but every candidate built by the pipeline carries the source line
as its description, so descriptions are plain strings here. -/
def pairPresent (t : List CandRow) (pn descr : Text) : Prop :=
  ∃ r ∈ t, r.partNumber = pn ∧ r.description = descr

instance (t : List CandRow) (pn descr : Text) : Decidable (pairPresent t pn descr) :=
  List.decidableBEx _ t

/-- One INSERT of the executemany batch of insert_candidates. The table
constraint UNIQUE(part_number, description) ON CONFLICT IGNORE drops a
conflicting row silently: the statement succeeds, no row is added, the rowid
counter and the connection last-insert-rowid stay unchanged. -/
def insertOneCand (st : Store) (c : Candidate) : Store :=
  if pairPresent st.candidates c.partNumber c.description then st
  else
    let newRow : CandRow :=
      { partId := st.nextPartId
        docId := c.docId
        page := c.page
        partNumber := c.partNumber
        description := c.description
        category := c.category
        confidence := c.confidence
        rawText := c.rawText }
    { st with
      candidates := st.candidates ++ [newRow]
      nextPartId := st.nextPartId + 1
      lastInsertRowid := st.nextPartId }

/-- insert_candidates: executemany over the batch; an ignored conflict does
not abort the remaining rows. -/
def insert_candidates (st : Store) (cs : List Candidate) : Store :=
  cs.foldl insertOneCand st

/-! The search interface of search_parts.py. -/

/-- Tokenization of text for the full-text index: maximal ASCII alphanumeric
runs, lower-cased. The porter stemmer of the real tokenizer additionally maps
each token to its stem; that step is abstracted to the identity here, which
is immaterial to every claim because the pipeline never writes the index. -/
def ftsTokensGo : Nat → Text → List Text
  | 0, _ => []
  | _, [] => []
  | fuel + 1, c :: rest =>
    if isAlnumA c then
      ((c :: rest).takeWhile isAlnumA).map lowerChar ::
        ftsTokensGo fuel ((c :: rest).dropWhile isAlnumA)
    else ftsTokensGo fuel rest

def ftsTokens (t : Text) : List Text :=
  ftsTokensGo t.length t

/-- Modelled fts5 query-string syntax, restricted to the simple bareword
queries the claims exercise: at least one token, and only alphanumeric
characters and spaces. The empty string is a syntax error in fts5 (verified
against SQLite: MATCH of an empty string raises a syntax-error). -/
def ftsQueryValid (term : String) : Bool :=
  !(ftsTokens term.toList).isEmpty && term.toList.all (fun c => isAlnumA c || c = ' ')

/-- Rows produced by a MATCH query on raw_lines_fts: index entries whose
token set covers every query token, with text, doc_id and page read back
from the content table raw_lines by rowid, joined to source_documents. -/
def ftsMatchRows (st : Store) (term : String) : List (Text × Nat × String) :=
  (st.ftsIndex.filter fun e =>
      (ftsTokens term.toList).all fun q => (ftsTokens e.2).any fun w => w == q)
    |>.filterMap fun e =>
      match st.rawLines.find? (fun r => r.lineId == e.1) with
      | none => none
      | some r =>
        match st.docs.find? (fun d => d.docId == r.docId) with
        | none => none
        | some d => some (r.text, r.page, d.filename)

/-- needle is a leading segment of hay. -/
def hasPre : Text → Text → Bool
  | [], _ => true
  | _ :: _, [] => false
  | a :: n, b :: h => a == b && hasPre n h

/-- needle occurs contiguously somewhere in hay. -/
def containsSub : Text → Text → Bool
  | n, [] => hasPre n []
  | n, b :: h => hasPre n (b :: h) || containsSub n h

/-- SQLite LIKE with pattern percent-term-percent: case-insensitive (ASCII)
substring containment; the empty term matches every non-NULL value. -/
def likeSub (term : String) (s : Text) : Bool :=
  containsSub (term.toList.map lowerChar) (s.map lowerChar)

/-- The structured query of search: candidates whose part_number or
description contains the term, joined to source_documents, capped at limit. -/
def structuredRows (st : Store) (term : String) (limit : Nat) :
    List (Text × Text × Nat × String) :=
  (st.candidates.filterMap fun p =>
    match st.docs.find? (fun d => d.docId == p.docId) with
    | none => none
    | some d =>
      if likeSub term p.partNumber || likeSub term p.description then
        some (p.partNumber, p.description, p.page, d.filename)
      else none).take limit

inductive SqlError where
  | ftsQueryError : SqlError
deriving DecidableEq

/-- The fts query of search. When the bound LIMIT is 0 SQLite jumps out
before the virtual-table scan starts (verified: an invalid MATCH string with
LIMIT 0 returns no rows and no error), so the query string is only parsed
when the limit is nonzero. An invalid query string then raises an
OperationalError. -/
def ftsSelect (st : Store) (term : String) (limit : Nat) :
    Except SqlError (List (Text × Nat × String)) :=
  if limit = 0 then Except.ok []
  else if ftsQueryValid term then Except.ok ((ftsMatchRows st term).take limit)
  else Except.error SqlError.ftsQueryError

/-- search(term, limit): the structured query runs first, then the fts
query; an error raised by the fts query propagates out of the function. -/
def search (st : Store) (term : String) (limit : Nat) :
    Except SqlError (List (Text × Text × Nat × String) × List (Text × Nat × String)) :=
  match ftsSelect st term limit with
  | Except.error e => Except.error e
  | Except.ok f => Except.ok (structuredRows st term limit, f)

/-! The text extractor and the pipeline of run_pipeline. -/

/-- Result of page.extract_text() for one page: ok with the optional text
(None for an image-only page), or an exception raised while handling that
page. -/
inductive PageRead where
  | ok : Option Text → PageRead
  | err : PageRead
deriving DecidableEq

/-- A document handle: pdfplumber.open either fails (corrupt or unsupported
file) or yields the list of pages. -/
inductive Document where
  | openFail : Document
  | pages : List PageRead → Document
deriving DecidableEq

/-- Python truthiness of the optional page text: None and the empty string
are falsy, so `if not text: continue` skips both. -/
def pyFalsy : Option Text → Bool
  | none => true
  | some t => t.isEmpty

/-- The page loop of extract_pdf_text, with 1-based page numbering. A page
exception aborts the loop; the surrounding except block swallows it, so the
pages accumulated so far are returned. -/
def extractGo : Nat → List PageRead → List (Nat × List Text)
  | _, [] => []
  | _, PageRead.err :: _ => []
  | idx, PageRead.ok t :: rest =>
    if pyFalsy t then extractGo (idx + 1) rest
    else (idx, cleanLines (t.getD [])) :: extractGo (idx + 1) rest

/-- extract_pdf_text: an open failure is caught and logged, yielding the
empty mapping; otherwise the page loop runs. -/
def extract_pdf_text : Document → List (Nat × List Text)
  | Document.openFail => []
  | Document.pages prs => extractGo 1 prs

/-- The configured source list PDF_URLS of parts_pdf_etl.py (13 entries,
insertion order of the dict). URLs abbreviated to their hosts: no claim
reads them; only the keys and the entry count matter. -/
def PDF_URLS : List (String × String) :=
  [("Dayton_Hydraulic_Brakes", "lascotruckparts.com"),
   ("Dana_Spicer", "canadawideparts.com"),
   ("PAI_Drivetrain", "barringtondieselclub.co.za"),
   ("FP_Cummins", "drivparts.com"),
   ("FP_Caterpillar", "drivparts.com"),
   ("FP_Detroit", "dieselduck.info"),
   ("FP_International", "drivparts.com"),
   ("Nelson_Exhaust", "nelsonexhaust.com.au"),
   ("FortPro_HeavyDuty", "fortpro.com"),
   ("FortPro_Lighting", "fortpro.com"),
   ("Velvac", "velvac.com"),
   ("Leaf_Springs", "springer-parts.com"),
   ("Stemco_Gaff", "stemco.com")]

/-- The break test `if limit and idx > limit: break` of run_pipeline.
Python truthiness: a limit of None or 0 is falsy, so the break never fires
and every entry is processed. -/
def breakCond : Option Int → Nat → Bool
  | none, _ => false
  | some n, idx => decide (n ≠ 0) && decide (n < (idx : Int))

/-- The per-entry body of the pipeline loop: a missing local file is skipped
with a warning; otherwise the source is upserted, the document extracted,
and for each page its lines are inserted and the detected candidates, when
any, appended. The filesystem outcome of the external download step is the
fs argument (none: file absent). -/
def processEntry (st : Store) (key url : String) (file : Option Document) : Store :=
  match file with
  | none => st
  | some doc =>
    let r := upsert_source st key url (key ++ ".pdf") none none
    (extract_pdf_text doc).foldl (fun s pg =>
      let s1 := insert_raw_lines s r.1 pg.1 pg.2
      let cands := detect_part_candidates r.1 pg.1 pg.2
      if cands.isEmpty then s1 else insert_candidates s1 cands) r.2

/-- The enumerate loop of run_pipeline: idx starts at 1; the break test runs
before the body. Returns the final store and the keys of the processed
entries in order. -/
def pipelineLoop (limit : Option Int) (fs : String → Option Document) :
    Nat → List (String × String) → Store → Store × List String
  | _, [], st => (st, [])
  | idx, (key, url) :: rest, st =>
    if breakCond limit idx then (st, [])
    else
      let st1 := processEntry st key url (fs key)
      let r := pipelineLoop limit fs (idx + 1) rest st1
      (r.1, key :: r.2)

/-- run_pipeline(limit): init_db rebuilds the store from empty, the download
step is external (its outcome is fs), then the source list is processed. -/
def run_pipeline (limit : Option Int) (fs : String → Option Document) :
    Store × List String :=
  pipelineLoop limit fs 1 PDF_URLS init_db

/-! Concrete fixtures used by the counterexamples and witnesses. -/

/-- The sole line of the synthetic one-page document of the spec example. -/
def brkText : Text := "BRK-4521 FRONT BRAKE PAD".toList

/-- A one-page document whose sole extracted line is brkText. -/
def synthDoc : Document := Document.pages [PageRead.ok (some brkText)]

/-- The store after ingesting the synthetic one-page document. -/
def synthStore : Store := processEntry init_db "Synth" "u" (some synthDoc)

/-- The store after inserting the brake line into raw_lines of a fresh
database (the setting of the full-text-index claim). -/
def ftsProbeStore : Store := insert_raw_lines init_db 1 1 [brkText]

/-- A registered document plus one persisted candidate, reached through the
store operations; the search counterexample runs against it. -/
def searchFixture : Store :=
  insert_candidates (upsert_source init_db "Doc1" "u" "Doc1.pdf" none none).2
    [{ docId := 1
       page := 1
       partNumber := "BRK-4521".toList
       description := brkText
       category := none
       confidence := 0.8
       rawText := brkText }]

/-- Step 1 of the stale-rowid scenario: register a new source on a fresh
connection. -/
def staleStep1 : Nat × Store := upsert_source init_db "A" "u1" "f1" none none

/-- Step 2: insert three raw lines on the same connection. -/
def staleStep2 : Store :=
  insert_raw_lines staleStep1.2 1 1 ["l1".toList, "l2".toList, "l3".toList]

/-- Step 3: re-register the same source_key, taking the DO UPDATE path. -/
def staleStep3 : Nat × Store := upsert_source staleStep2 "A" "u2" "f2" none none

/-- A two-page document: a text page followed by an image-only page. -/
def gapPages : List PageRead :=
  [PageRead.ok (some "  BRK-4521 FRONT  ".toList), PageRead.ok none]

/-- A filesystem on which every configured source file is present but
unreadable (open failure). -/
def openFailFs : String → Option Document := fun _ => some Document.openFail

/-- A filesystem on which no configured source file exists. -/
def emptyFs : String → Option Document := fun _ => none

/-- A candidate used by the idempotence witness. -/
def c4cand : Candidate :=
  { docId := 1, page := 1, partNumber := "A1-23".toList,
    description := "A1-23 GASKET".toList, category := none, confidence := 0.8,
    rawText := "A1-23 GASKET".toList }

/-- A candidate used by the detector-field witness. -/
def c9cand : Candidate :=
  { docId := 1, page := 2, partNumber := "ABCD".toList,
    description := "ABCD".toList, category := none, confidence := 0.8,
    rawText := "ABCD".toList }

/-! Theorems. -/

lemma pairPresent_insertOne (st : Store) (c : Candidate) (pn d : Text)
    (h : pairPresent st.candidates pn d) :
    pairPresent (insertOneCand st c).candidates pn d := by
  obtain ⟨r, hr, hp⟩ := h
  unfold insertOneCand
  split
  · exact ⟨r, hr, hp⟩
  · exact ⟨r, List.mem_append_left _ hr, hp⟩

lemma pairPresent_insertBatch (cs : List Candidate) (st : Store) (pn d : Text)
    (h : pairPresent st.candidates pn d) :
    pairPresent (insert_candidates st cs).candidates pn d := by
  induction cs generalizing st with
  | nil => exact h
  | cons c cs ih => exact ih _ (pairPresent_insertOne st c pn d h)

lemma pairPresent_insertOne_self (st : Store) (c : Candidate) :
    pairPresent (insertOneCand st c).candidates c.partNumber c.description := by
  unfold insertOneCand
  split
  next h => exact h
  next h =>
    exact ⟨_, List.mem_append_right _ (List.mem_singleton_self _), rfl, rfl⟩

lemma insertBatch_all_present (cs : List Candidate) (st : Store) :
    ∀ c ∈ cs,
      pairPresent (insert_candidates st cs).candidates c.partNumber c.description := by
  induction cs generalizing st with
  | nil => intro c hc; cases hc
  | cons a cs ih =>
    intro c hc
    cases hc with
    | head =>
      exact pairPresent_insertBatch cs (insertOneCand st a) _ _
        (pairPresent_insertOne_self st a)
    | tail _ hm => exact ih (insertOneCand st a) c hm

lemma insertOne_noop (st : Store) (c : Candidate)
    (h : pairPresent st.candidates c.partNumber c.description) :
    insertOneCand st c = st := by
  unfold insertOneCand
  exact if_pos h

lemma insertBatch_noop (cs : List Candidate) (st : Store)
    (h : ∀ c ∈ cs, pairPresent st.candidates c.partNumber c.description) :
    insert_candidates st cs = st := by
  induction cs with
  | nil => rfl
  | cons a cs ih =>
    have ha := insertOne_noop st a (h a (List.mem_cons_self a cs))
    calc insert_candidates st (a :: cs)
        = insert_candidates (insertOneCand st a) cs := rfl
      _ = insert_candidates st cs := by rw [ha]
      _ = st := ih (fun c hc => h c (List.mem_cons_of_mem a hc))

/-- C4: candidate insertion is idempotent under the (part_number,
description) key. For every store state and batch, inserting the batch a
second time leaves the store, and hence the parts_candidates row count,
unchanged; every pair of the batch is present after one insert (a duplicate
is dropped without aborting the rest of the batch, insertion being a total
function of conflict-ignore semantics). -/
theorem insert_candidates_idempotent :
    ∀ (st : Store) (cs : List Candidate),
      insert_candidates (insert_candidates st cs) cs = insert_candidates st cs ∧
      (insert_candidates (insert_candidates st cs) cs).candidates.length =
        (insert_candidates st cs).candidates.length ∧
      ∀ c ∈ cs,
        pairPresent (insert_candidates st cs).candidates c.partNumber c.description := by
  intro st cs
  have hall := insertBatch_all_present cs st
  have heq := insertBatch_noop cs (insert_candidates st cs) hall
  exact ⟨heq, by rw [heq], hall⟩

/-- C4, witness at a concrete store and batch. -/
theorem insert_candidates_idempotent_witness :
    insert_candidates (insert_candidates init_db [c4cand]) [c4cand] =
      insert_candidates init_db [c4cand] ∧
    pairPresent (insert_candidates init_db [c4cand]).candidates
      c4cand.partNumber c4cand.description :=
  ⟨(insert_candidates_idempotent init_db [c4cand]).1,
   (insert_candidates_idempotent init_db [c4cand]).2.2 c4cand
     (List.mem_singleton_self _)⟩

/-- C9: every candidate tuple built by detect_part_candidates has
description and raw_text identical to an originating source line, category
None, confidence exactly 0.8, and the doc_id and page passed in; an empty
line list yields no candidates. -/
theorem detect_candidate_fields :
    ∀ (d p : Nat),
      (∀ (lines : List Text) (c : Candidate), c ∈ detect_part_candidates d p lines →
        (∃ line ∈ lines, c.description = line ∧ c.rawText = line) ∧
        c.category = none ∧ c.confidence = 0.8 ∧ c.docId = d ∧ c.page = p) ∧
      detect_part_candidates d p [] = [] := by
  intro d p
  refine ⟨?_, rfl⟩
  intro lines c hc
  simp only [detect_part_candidates, List.mem_bind, List.mem_map] at hc
  obtain ⟨line, hline, m, hm, rfl⟩ := hc
  exact ⟨⟨line, hline, rfl, rfl⟩, rfl, rfl, rfl, rfl⟩

lemma dropWhile_dropWhile (p : Char → Bool) (l : Text) :
    (l.dropWhile p).dropWhile p = l.dropWhile p := by
  induction l with
  | nil => rfl
  | cons a l ih =>
    by_cases h : p a = true
    · simp [List.dropWhile_cons, h, ih]
    · simp [List.dropWhile_cons, h]

lemma dropWhile_head?_not (p : Char → Bool) (l : Text) (a : Char)
    (h : (l.dropWhile p).head? = some a) : p a = false := by
  induction l with
  | nil => simp at h
  | cons b l ih =>
    by_cases hb : p b = true
    · rw [List.dropWhile_cons, if_pos hb] at h
      exact ih h
    · rw [List.dropWhile_cons, if_neg hb] at h
      simp only [List.head?_cons, Option.some.injEq] at h
      subst h
      simpa using hb

lemma rstripBy_append (p : Char → Bool) (l : Text) :
    l = rstripBy p l ++ (l.reverse.takeWhile p).reverse := by
  conv_lhs => rw [← l.reverse_reverse,
    ← List.takeWhile_append_dropWhile (p := p) (l := l.reverse)]
  rw [List.reverse_append]
  rfl

lemma pyStrip_idem (l : Text) : pyStrip (pyStrip l) = pyStrip l := by
  have hBrev : (pyStrip l).reverse = (l.dropWhile isSpc).reverse.dropWhile isSpc := by
    show (rstripBy isSpc (l.dropWhile isSpc)).reverse = _
    unfold rstripBy
    exact List.reverse_reverse _
  have hBdrop : (pyStrip l).dropWhile isSpc = pyStrip l := by
    cases hBe : pyStrip l with
    | nil => rfl
    | cons b bs =>
      have hsplit : l.dropWhile isSpc =
          pyStrip l ++ ((l.dropWhile isSpc).reverse.takeWhile isSpc).reverse :=
        rstripBy_append isSpc (l.dropWhile isSpc)
      have hAhead : (l.dropWhile isSpc).head? = some b := by
        rw [hsplit, hBe]; rfl
      have hb : isSpc b = false := dropWhile_head?_not isSpc l b hAhead
      rw [List.dropWhile_cons, if_neg (by simp [hb])]
  calc pyStrip (pyStrip l)
      = rstripBy isSpc ((pyStrip l).dropWhile isSpc) := rfl
    _ = rstripBy isSpc (pyStrip l) := by rw [hBdrop]
    _ = ((pyStrip l).reverse.dropWhile isSpc).reverse := rfl
    _ = (((l.dropWhile isSpc).reverse.dropWhile isSpc).dropWhile isSpc).reverse := by
        rw [hBrev]
    _ = ((l.dropWhile isSpc).reverse.dropWhile isSpc).reverse := by
        rw [dropWhile_dropWhile]
    _ = (pyStrip l).reverse.reverse := by rw [hBrev]
    _ = pyStrip l := List.reverse_reverse _

lemma extractGo_mem (prs : List PageRead) :
    ∀ (idx n : Nat) (ls : List Text), (n, ls) ∈ extractGo idx prs →
      idx ≤ n ∧ ∃ t : Text, prs.get? (n - idx) = some (PageRead.ok (some t)) ∧
        t ≠ [] ∧ ls = cleanLines t := by
  induction prs with
  | nil => intro idx n ls h; simp [extractGo] at h
  | cons p rest ih =>
    intro idx n ls h
    cases p with
    | err => simp [extractGo] at h
    | ok t =>
      simp only [extractGo] at h
      by_cases hf : pyFalsy t = true
      · rw [if_pos hf] at h
        obtain ⟨hle, t', hget, hne, hls⟩ := ih (idx + 1) n ls h
        refine ⟨by omega, t', ?_, hne, hls⟩
        have hsub : n - idx = (n - (idx + 1)) + 1 := by omega
        rw [hsub]
        simpa using hget
      · rw [if_neg hf] at h
        have hf' : pyFalsy t = false := by simpa using hf
        obtain ⟨txt, rfl, hne⟩ : ∃ txt, t = some txt ∧ txt ≠ [] := by
          cases t with
          | none => simp [pyFalsy] at hf'
          | some txt =>
            refine ⟨txt, rfl, ?_⟩
            simpa [pyFalsy] using hf'
        cases h with
        | head =>
          exact ⟨le_refl _, txt, by simp, hne, rfl⟩
        | tail _ hm =>
          obtain ⟨hle, t', hget, hne', hls⟩ := ih (idx + 1) n ls hm
          refine ⟨by omega, t', ?_, hne', hls⟩
          have hsub : n - idx = (n - (idx + 1)) + 1 := by omega
          rw [hsub]
          simpa using hget

/-- C6: every entry of the extractor result holds only lines that are
fixed by strip and non-empty; each entry is exactly the order-preserving
strip-and-filter of the split text of the corresponding page (hence a
sublist of the stripped lines as emitted by the reader); and a page whose
extraction yields no text (None or empty) has no entry at all. -/
theorem extract_lines_trimmed_ordered_gaps (prs : List PageRead) :
    (∀ (n : Nat) (ls : List Text), (n, ls) ∈ extract_pdf_text (Document.pages prs) →
      (∀ l ∈ ls, pyStrip l = l ∧ l ≠ []) ∧
      ∃ t : Text, prs.get? (n - 1) = some (PageRead.ok (some t)) ∧
        ls = cleanLines t ∧ List.Sublist ls ((splitNL t).map pyStrip)) ∧
    (∀ k : Nat, (prs.get? k = some (PageRead.ok none) ∨
        prs.get? k = some (PageRead.ok (some []))) →
      ∀ ls : List Text, (k + 1, ls) ∉ extract_pdf_text (Document.pages prs)) := by
  constructor
  · intro n ls h
    obtain ⟨hle, t, hget, hne, hls⟩ := extractGo_mem prs 1 n ls h
    constructor
    · intro l hl
      rw [hls] at hl
      simp only [cleanLines, List.mem_filter, List.mem_map] at hl
      obtain ⟨⟨x, hx, rfl⟩, hemp⟩ := hl
      refine ⟨pyStrip_idem x, ?_⟩
      simpa using hemp
    · refine ⟨t, hget, hls, ?_⟩
      rw [hls]
      exact List.filter_sublist _
  · intro k hk ls hmem
    obtain ⟨hle, t, hget, hne, hls⟩ := extractGo_mem prs 1 (k + 1) ls hmem
    rw [show k + 1 - 1 = k from rfl] at hget
    cases hk with
    | inl h => rw [h] at hget; simp at hget
    | inr h =>
      rw [h] at hget
      simp only [Option.some.injEq, PageRead.ok.injEq] at hget
      exact hne hget.symm

/-- C6, witness at a concrete two-page document (a text page followed by an
image-only page). -/
theorem extract_lines_witness :
    ((1, ["BRK-4521 FRONT".toList]) ∈ extract_pdf_text (Document.pages gapPages)) ∧
    (pyStrip "BRK-4521 FRONT".toList = "BRK-4521 FRONT".toList ∧
      "BRK-4521 FRONT".toList ≠ ([] : Text)) ∧
    ((2, ([] : List Text)) ∉ extract_pdf_text (Document.pages gapPages)) := by
  have hm : (1, ["BRK-4521 FRONT".toList]) ∈
      extract_pdf_text (Document.pages gapPages) := by decide
  refine ⟨hm, ?_, ?_⟩
  · exact ((extract_lines_trimmed_ordered_gaps gapPages).1 1 _ hm).1 _
      (List.mem_singleton_self _)
  · exact (extract_lines_trimmed_ordered_gaps gapPages).2 1 (Or.inl rfl) []

/-- C10: an exception raised while handling a page is caught by the
surrounding except block, so extract_pdf_text returns exactly the pages
accumulated before the failing page, not an empty mapping. -/
theorem midstream_failure_keeps_earlier_pages :
    ∀ (pre post : List PageRead),
      extract_pdf_text (Document.pages (pre ++ PageRead.err :: post)) =
        extract_pdf_text (Document.pages pre) := by
  intro pre post
  have h : ∀ idx, extractGo idx (pre ++ PageRead.err :: post) = extractGo idx pre := by
    induction pre with
    | nil => intro idx; rfl
    | cons p rest ih =>
      intro idx
      cases p with
      | err => rfl
      | ok t => simp only [List.cons_append, extractGo, List.append_eq, ih]
  exact h 1

/-- C7: a document that cannot be opened yields no pages and no exception;
its processing changes neither raw_lines nor parts_candidates (only the
document registration), and the pipeline loop goes on to process the
remaining entries from that state. -/
theorem open_failure_skips_and_continues :
    ∀ (st : Store) (limit : Option Int) (idx : Nat) (key url : String)
      (rest : List (String × String)) (fs : String → Option Document),
      breakCond limit idx = false → fs key = some Document.openFail →
      extract_pdf_text Document.openFail = [] ∧
      (processEntry st key url (fs key)).rawLines = st.rawLines ∧
      (processEntry st key url (fs key)).candidates = st.candidates ∧
      pipelineLoop limit fs idx ((key, url) :: rest) st =
        ((pipelineLoop limit fs (idx + 1) rest (processEntry st key url (fs key))).1,
         key :: (pipelineLoop limit fs (idx + 1) rest (processEntry st key url (fs key))).2) := by
  intro st limit idx key url rest fs hb hfs
  have hup : ((upsert_source st key url (key ++ ".pdf") none none).2).rawLines = st.rawLines ∧
      ((upsert_source st key url (key ++ ".pdf") none none).2).candidates = st.candidates := by
    unfold upsert_source
    split <;> exact ⟨rfl, rfl⟩
  have hpe : processEntry st key url (fs key) =
      (upsert_source st key url (key ++ ".pdf") none none).2 := by
    rw [hfs]; rfl
  refine ⟨rfl, ?_, ?_, ?_⟩
  · rw [hpe]; exact hup.1
  · rw [hpe]; exact hup.2
  · simp only [pipelineLoop, hb]
    simp

/-- C7, witness at a concrete entry whose file is present but unreadable. -/
theorem open_failure_witness :
    breakCond none 1 = false ∧ openFailFs "K" = some Document.openFail ∧
    (extract_pdf_text Document.openFail = [] ∧
     (processEntry init_db "K" "u" (openFailFs "K")).rawLines = init_db.rawLines ∧
     (processEntry init_db "K" "u" (openFailFs "K")).candidates = init_db.candidates ∧
     pipelineLoop none openFailFs 1 [("K", "u")] init_db =
       ((pipelineLoop none openFailFs 2 [] (processEntry init_db "K" "u" (openFailFs "K"))).1,
        "K" :: (pipelineLoop none openFailFs 2 []
          (processEntry init_db "K" "u" (openFailFs "K"))).2)) :=
  ⟨rfl, rfl, open_failure_skips_and_continues init_db none 1 "K" "u" [] openFailFs rfl rfl⟩

lemma pipelineLoop_length_le (entries : List (String × String)) (n : Int) :
    ∀ (idx : Nat) (fs : String → Option Document) (st : Store),
      1 ≤ n → 1 ≤ idx →
      ((pipelineLoop (some n) fs idx entries st).2).length ≤ (n + 1 - (idx : Int)).toNat := by
  induction entries with
  | nil => intro idx fs st hn hidx; simp [pipelineLoop]
  | cons e rest ih =>
    intro idx fs st hn hidx
    obtain ⟨key, url⟩ := e
    by_cases hb : breakCond (some n) idx = true
    · simp [pipelineLoop, hb]
    · rw [Bool.not_eq_true] at hb
      have hb' := hb
      have hle : (idx : Int) ≤ n := by
        simp [breakCond] at hb'
        exact hb' (by omega)
      have hrec := ih (idx + 1) fs (processEntry st key url (fs key)) hn (by omega)
      simp only [pipelineLoop, hb]
      simp only [Bool.false_eq_true, if_false, List.length_cons]
      omega

/-- C8, amended: for every positive limit n, run_pipeline processes at most
n entries of the configured source list; a limit of 0 (like None) disables
the cap entirely (see the counterexample). -/
theorem positive_limit_bounds_processed :
    ∀ (n : Int), 1 ≤ n → ∀ (fs : String → Option Document),
      ((run_pipeline (some n) fs).2).length ≤ n.toNat := by
  intro n hn fs
  have h := pipelineLoop_length_le PDF_URLS n 1 fs init_db hn (le_refl 1)
  exact le_trans h (le_of_eq (by push_cast; omega))

/-- C8, witness at limit 2. -/
theorem positive_limit_witness :
    (1 : Int) ≤ 2 ∧ ((run_pipeline (some 2) emptyFs).2).length ≤ (2 : Int).toNat :=
  ⟨by norm_num, positive_limit_bounds_processed 2 (by norm_num) emptyFs⟩

/-- C9, witness at a concrete detector input. -/
theorem detect_candidate_fields_witness :
    (c9cand ∈ detect_part_candidates 1 2 ["ABCD".toList]) ∧
    ((∃ line ∈ ["ABCD".toList], c9cand.description = line ∧ c9cand.rawText = line) ∧
      c9cand.category = none ∧ c9cand.confidence = 0.8 ∧
      c9cand.docId = 1 ∧ c9cand.page = 2) := by
  have he : detect_part_candidates 1 2 ["ABCD".toList] = [c9cand] := rfl
  have hm : c9cand ∈ detect_part_candidates 1 2 ["ABCD".toList] := by
    rw [he]; exact List.mem_singleton_self _
  exact ⟨hm, (detect_candidate_fields 1 2).1 ["ABCD".toList] c9cand hm⟩

/-- C1: the full-text index is NOT kept consistent with raw_lines. The
schema of init_db declares raw_lines_fts as an external-content fts5 table
without sync triggers and insert_raw_lines writes only raw_lines, so the
index stays empty forever: after inserting the brake-pad line, the raw_lines
table holds the row but a MATCH query for one of its words returns nothing.
The claim that every inserted row is immediately searchable is false of the
code; this theorem evaluates the code at the failing input. -/
theorem fts_index_never_synced :
    (∀ (st : Store) (d p : Nat) (ls : List Text),
      (insert_raw_lines st d p ls).ftsIndex = st.ftsIndex) ∧
    init_db.ftsIndex = [] ∧
    ftsProbeStore.rawLines.map (fun r => r.text) = [brkText] ∧
    ftsMatchRows ftsProbeStore "BRAKE" = [] ∧
    ftsSelect ftsProbeStore "BRAKE" 10 = Except.ok [] := by
  refine ⟨?_, rfl, rfl, rfl, rfl⟩
  intro st d p ls
  induction ls generalizing st with
  | nil => rfl
  | cons l ls ih => exact ih _

/-- C2, counterexample: on the line BRK-4521 FRONT BRAKE PAD detection
yields three candidates (FRONT and BRAKE also match [A-Z0-9-] with length
at least 4 on word boundaries), not exactly one as claimed. -/
theorem brake_line_not_single_candidate :
    (detect_part_candidates 1 1 [brkText]).length = 3 ∧
    (detect_part_candidates 1 1 [brkText]).length ≠ 1 := by
  exact ⟨rfl, by decide⟩

/-- C2, amended: ingesting the synthetic one-page document persists exactly
one raw line with the exact text, and detection yields exactly three
candidates with part_numbers BRK-4521, FRONT, BRAKE in order, the first
being BRK-4521; every candidate has description and raw_text equal to the
full line and confidence 0.8. -/
theorem brake_line_pipeline_three_candidates :
    synthStore.rawLines.map (fun r => (r.docId, r.page, r.text)) = [(1, 1, brkText)] ∧
    synthStore.candidates.map (fun r => r.partNumber) =
      ["BRK-4521".toList, "FRONT".toList, "BRAKE".toList] ∧
    synthStore.candidates.map (fun r => (r.description, r.rawText)) =
      [(brkText, brkText), (brkText, brkText), (brkText, brkText)] ∧
    synthStore.candidates.map (fun r => r.confidence) = [0.8, 0.8, 0.8] ∧
    (synthStore.candidates.map (fun r => r.partNumber)).head? =
      some "BRK-4521".toList := by
  exact ⟨rfl, rfl, rfl, rfl, rfl⟩

/-- C3, counterexample: on a store holding one candidate, search with the
empty term and the default limit 10 does not return two empty result sets:
the LIKE pattern built from the empty term matches every candidate row, and
the fts MATCH against the empty string is a query syntax error, which the
function raises. -/
theorem empty_term_search_fails :
    search searchFixture "" 10 = Except.error SqlError.ftsQueryError ∧
    structuredRows searchFixture "" 10 ≠ [] := by
  exact ⟨rfl, by decide⟩

/-- C3, amended: a zero limit yields two empty result sets and no error,
for every store state and every term; the empty-term half of the claim is
false (see the counterexample). -/
theorem zero_limit_search_empty :
    ∀ (st : Store) (term : String), search st term 0 = Except.ok ([], []) := by
  intro st term
  simp [search, ftsSelect, structuredRows]

/-- C5: on the DO UPDATE path upsert_source returns cursor.lastrowid, which
still holds the rowid of the last actual insert on the connection; after
three raw-line inserts, re-registering source_key A returns 3 although the
document row holding A has doc_id 1 (its metadata is updated in place and no
duplicate row is created). The claim that the returned doc_id is always the
doc_id of the row holding the source_key is false of the code; this theorem
evaluates the code at the failing input. -/
theorem upsert_update_returns_stale_rowid :
    staleStep1.1 = 1 ∧
    staleStep3.1 = 3 ∧
    staleStep3.1 ≠ 1 ∧
    staleStep3.2.docs.map (fun r => (r.docId, r.sourceKey, r.url, r.filename)) =
      [(1, "A", "u2", "f2")] := by
  exact ⟨rfl, rfl, by decide, rfl⟩

/-- C8, counterexample: run_pipeline with limit 0 does not process at most 0
entries: 0 is falsy in the break test `if limit and idx > limit`, so all 13
configured entries are processed. -/
theorem limit_zero_processes_all_entries :
    (run_pipeline (some 0) emptyFs).2.length = 13 ∧
    ¬ (run_pipeline (some 0) emptyFs).2.length ≤ 0 := by
  exact ⟨rfl, by decide⟩
